import Mathlib

/-!
Verification development for the repository migration orchestrator.

The definitions below are a shallow embedding of the server core:
* `sanitizeRepoName` embeds the repository-name normalization helper
  (routes file, `sanitizeRepoName`, lines 16-23);
* `Migration`, `InsertMigration`, `MemState` and the five storage
  operations embed the shared schema and the in-memory storage class
  (`MemStorage`, storage file lines 12-86);
* `migrateRepository` embeds the transfer engine (routes file,
  `migrateRepository`, lines 25-106), parameterized by an `Env` that
  supplies the outcomes of the external calls (decryption, temporary
  directory creation, the git subprocesses, the target-host create call,
  and workspace removal).

JavaScript strings are embedded as Lean `String`/`List Char`; the
JavaScript number fields that the code only ever uses as integers are
embedded as `Int`/`Nat`; `null`/`undefined` become `Option`; thrown
exceptions become explicit `JsError` values threaded through the model.
-/

/-! ## Character helpers for `sanitizeRepoName` -/

/-- ASCII lower-casing, as `String.prototype.toLowerCase` acts on the
ASCII range: code points 65-90 (`A`-`Z`) are shifted to 97-122. -/
def jsToLower (c : Char) : Char :=
  if 65 ≤ c.toNat ∧ c.toNat ≤ 90 then Char.ofNat (c.toNat + 32) else c

/-- Membership in the character class `[a-z0-9-_.]` of the regex on line 20
of the routes file (`a`-`z` is 97-122, `0`-`9` is 48-57). -/
def isAllowed (c : Char) : Bool :=
  (97 ≤ c.toNat && c.toNat ≤ 122) || (48 ≤ c.toNat && c.toNat ≤ 57) ||
    c = '-' || c = '_' || c = '.'

/-- `.replace(/[^a-z0-9-_.]/g, '-')`: every character outside the class
becomes a dash. -/
def replaceDisallowed (l : List Char) : List Char :=
  l.map fun c => if isAllowed c then c else '-'

/-- The dash-run replacement on line 21: each maximal run of dashes
collapses to a single dash. -/
def collapseDashes : List Char → List Char
  | [] => []
  | [c] => [c]
  | c :: d :: rest =>
    if c = '-' ∧ d = '-' then collapseDashes (d :: rest)
    else c :: collapseDashes (d :: rest)

/-- The `^-` half of the final replacement on line 22: one leading dash
is removed. -/
def trimLeadDash (l : List Char) : List Char :=
  match l with
  | [] => []
  | c :: rest => if c = '-' then rest else c :: rest

/-- The `-$` half of `.replace(/^-|-$/g, '')`: one trailing dash is
removed (realized by trimming a leading dash of the reversal). -/
def trimTrailDash (l : List Char) : List Char :=
  (trimLeadDash l.reverse).reverse

/-- List-level body of `sanitizeRepoName` (routes file lines 16-23):
lower-case, replace disallowed characters by dashes, collapse dash runs,
trim a leading and a trailing dash. -/
def sanitizeList (l : List Char) : List Char :=
  trimTrailDash (trimLeadDash (collapseDashes (replaceDisallowed (l.map jsToLower))))

/-- `sanitizeRepoName` (routes file lines 16-23). The `async` wrapper of
the source is irrelevant to the value computed. -/
def sanitizeRepoName (s : String) : String :=
  ⟨sanitizeList s.data⟩

/-! ## Splitting helpers

The engine uses `String.prototype.split` in three places.  They are
embedded structurally over `List Char` so that every use is computable by
kernel reduction. -/

/-- `listStartsWith p l` holds when `p` is an initial segment of `l`. -/
def listStartsWith : List Char → List Char → Bool
  | [], _ => true
  | _ :: _, [] => false
  | a :: as, b :: bs => a = b && listStartsWith as bs

/-- `occursIn n h`: the list `n` occurs contiguously inside `h`. -/
def occursIn (n : List Char) : List Char → Bool
  | [] => listStartsWith n []
  | c :: t => listStartsWith n (c :: t) || occursIn n t

/-- `split('/')`: split at every slash, keeping empty pieces. -/
def splitOnSlash : List Char → List (List Char)
  | [] => [[]]
  | c :: rest =>
    match splitOnSlash rest with
    | [] => [[]]
    | h :: t => if c = '/' then [] :: h :: t else (c :: h) :: t

/-- Split `l` at the first occurrence of `sep`, returning the pieces
before and after it, or `none` when `sep` does not occur. -/
def breakOnFirst (sep : List Char) : List Char → Option (List Char × List Char)
  | [] => if listStartsWith sep [] then some ([], []) else none
  | c :: rest =>
    if listStartsWith sep (c :: rest) then some ([], (c :: rest).drop sep.length)
    else
      match breakOnFirst sep rest with
      | some (pre, post) => some (c :: pre, post)
      | none => none

/-- `s.split(sep)[1]` for a non-empty separator: the piece between the
first and second occurrence of `sep` (the tail when `sep` occurs once),
`none` when `sep` does not occur (the JavaScript index is `undefined`). -/
def splitSecondPiece (sep l : List Char) : Option (List Char) :=
  match breakOnFirst sep l with
  | none => none
  | some (_, post) =>
    match breakOnFirst sep post with
    | none => some post
    | some (pre, _) => some pre

/-- `[owner, sourceRepo] = parts.slice(-2)` (routes file line 36): the
second destructured component is the last element when there are at least
two parts and `undefined` otherwise. -/
def lastTwoSnd (parts : List (List Char)) : Option (List Char) :=
  if 2 ≤ parts.length then parts.getLast? else none

/-! ## Shared schema (`shared/schema.ts`) -/

/-- `migrationStatusEnum` (schema lines 6-12). -/
inductive MStatus
  | pending
  | in_progress
  | completed
  | failed
  | cancelled
deriving DecidableEq, Repr

/-- `pipelineConfigSchema` (schema lines 41-47); the optional
`customMappings` record is never set by the server and is omitted. -/
structure PipelineConfig where
  convertClassicPipelines : Bool
  migrateVariableGroups : Bool
  migrateServiceConnections : Bool
  migrateEnvironments : Bool
deriving DecidableEq, Repr

/-- A row of the `migrations` table (schema lines 19-38).  `timestamp`
columns are embedded as abstract instants (`Nat`); `jsonb` validation
status is embedded opaquely as a string. -/
structure Migration where
  id : Nat
  batchId : Option String
  batchName : Option String
  sourceRepo : String
  targetRepo : String
  status : MStatus
  progress : Int
  error : Option String
  azureToken : String
  githubToken : String
  pipelineConfig : Option PipelineConfig
  migrationMode : String
  folderPath : Option String
  startedAt : Option Nat
  completedAt : Option Nat
  validationStatus : Option String
  retryCount : Int
  priority : Int
deriving DecidableEq, Repr

/-- `insertMigrationSchema` (schema lines 59-72): the creation payload.
`batchConfig` is accepted by the schema but never read by the storage
layer and is omitted. -/
structure InsertMigration where
  sourceRepo : String
  targetRepo : String
  status : MStatus
  azureToken : String
  githubToken : String
  batchId : Option String := none
  batchName : Option String := none
  pipelineConfig : Option PipelineConfig := none
  migrationMode : Option String := none
  folderPath : Option String := none
deriving DecidableEq, Repr

/-- JavaScript `x || d` for an optional string: `undefined`/`null` and
the empty string are falsy. -/
def jsStrOr (o : Option String) (d : String) : String :=
  match o with
  | some s => if s = "" then d else s
  | none => d

/-- JavaScript `x || null` for an optional string. -/
def jsStrOrNone (o : Option String) : Option String :=
  match o with
  | some s => if s = "" then none else some s
  | none => none

/-! ## In-memory storage (`MemStorage`, storage file lines 12-86) -/

/-- Insertion-ordered association list modelling the private
`Map<number, Migration>`. -/
def mapLookup (l : List (Nat × Migration)) (id : Nat) : Option Migration :=
  match l with
  | [] => none
  | (k, v) :: t => if k = id then some v else mapLookup t id

/-- `Map.prototype.set`: replace in place when the key exists, append
otherwise. -/
def mapSet (l : List (Nat × Migration)) (id : Nat) (v : Migration) :
    List (Nat × Migration) :=
  match l with
  | [] => [(id, v)]
  | (k, w) :: t => if k = id then (k, v) :: t else (k, w) :: mapSet t id v

/-- The private state of `MemStorage` (lines 13-14). -/
structure MemState where
  migrations : List (Nat × Migration)
  currentId : Nat
deriving DecidableEq, Repr

/-- The constructor state (lines 16-19). -/
def initState : MemState := ⟨[], 1⟩

/-- `MemStorage.createMigration` (lines 21-45). -/
def createMigration (ins : InsertMigration) (st : MemState) :
    Migration × MemState :=
  let id := st.currentId
  let m : Migration :=
    { id := id
      batchId := none
      batchName := none
      sourceRepo := ins.sourceRepo
      targetRepo := ins.targetRepo
      status := ins.status
      progress := 0
      error := none
      azureToken := ins.azureToken
      githubToken := ins.githubToken
      pipelineConfig := ins.pipelineConfig
      migrationMode := jsStrOr ins.migrationMode "individual"
      folderPath := jsStrOrNone ins.folderPath
      startedAt := none
      completedAt := none
      validationStatus := none
      retryCount := 0
      priority := 1 }
  (m, ⟨mapSet st.migrations id m, id + 1⟩)

/-- `MemStorage.getMigration` (lines 47-49). -/
def getMigration (id : Nat) (st : MemState) : Option Migration :=
  mapLookup st.migrations id

/-- `MemStorage.updateMigrationStatus` (lines 51-63).  `now` stands for
`new Date()`; `none` models the thrown `Migration not found`. -/
def updateMigrationStatus (id : Nat) (status : MStatus) (now : Nat)
    (st : MemState) : Option (Migration × MemState) :=
  match getMigration id st with
  | none => none
  | some m =>
    let updated : Migration :=
      { m with
        status := status
        completedAt := if status = MStatus.completed then some now else m.completedAt
        startedAt :=
          if status = MStatus.in_progress ∧ m.startedAt = none then some now
          else m.startedAt }
    some (updated, { st with migrations := mapSet st.migrations id updated })

/-- `MemStorage.updateMigrationProgress` (lines 65-72). -/
def updateMigrationProgress (id : Nat) (progress : Int) (st : MemState) :
    Option (Migration × MemState) :=
  match getMigration id st with
  | none => none
  | some m =>
    let updated : Migration := { m with progress := progress }
    some (updated, { st with migrations := mapSet st.migrations id updated })

/-- `MemStorage.updateMigrationError` (lines 74-81). -/
def updateMigrationError (id : Nat) (error : String) (st : MemState) :
    Option (Migration × MemState) :=
  match getMigration id st with
  | none => none
  | some m =>
    let updated : Migration := { m with error := some error }
    some (updated, { st with migrations := mapSet st.migrations id updated })

/-- `MemStorage.getAllMigrations` (lines 83-85). -/
def getAllMigrations (st : MemState) : List Migration :=
  st.migrations.map (·.2)

/-! ## The creation route (`POST /api/migrations`, routes lines 324-382) -/

/-- The `migrationData` object built on routes lines 352-364 for one
selected repository: the status is always `pending`, the target is
`targetOrg/sourceRepo.name`, and the tokens are stored in their
encrypted (session) form. -/
def apiMigrationData (remoteUrl targetOrg sourceName encAzure encGithub : String) :
    InsertMigration :=
  { sourceRepo := remoteUrl
    targetRepo := targetOrg ++ "/" ++ sourceName
    status := MStatus.pending
    azureToken := encAzure
    githubToken := encGithub
    pipelineConfig := some ⟨true, true, true, true⟩ }

/-- Record creation as performed by the route (line 366). -/
def apiCreateMigration (remoteUrl targetOrg sourceName encAzure encGithub : String)
    (st : MemState) : Migration × MemState :=
  createMigration (apiMigrationData remoteUrl targetOrg sourceName encAzure encGithub) st

/-- All identifiers present in the store are below the next one to be
issued; this holds initially and is preserved by every operation, and is
what makes freshly issued identifiers new. -/
def idsBelow (st : MemState) : Prop :=
  ∀ p ∈ st.migrations, p.1 < st.currentId

/-! ## The transfer engine (`migrateRepository`, routes lines 25-106) -/

/-- A thrown JavaScript error as the engine observes it: its `message`,
and, for axios failures, `error.response?.status` and
`error.response?.data?.message`. -/
structure JsError where
  message : String
  responseStatus : Option Nat := none
  responseDataMessage : Option String := none
deriving DecidableEq, Repr

/-- Line 92: `error.response?.data?.message || error.message ||
"Migration failed"`, with JavaScript falsiness (absent or empty strings
fall through). -/
def errorMessage (e : JsError) : String :=
  let dm := match e.responseDataMessage with | some s => s | none => ""
  if dm ≠ "" then dm
  else if e.message ≠ "" then e.message
  else "Migration failed"

/-- `execSync` raises on a non-zero exit with the executed command line
embedded in the message (`Command failed: <cmd>`, Node `child_process`
semantics). -/
def execSyncError (cmd : String) : JsError :=
  { message := "Command failed: " ++ cmd }

/-- The `Migration not found` error thrown by the storage mutators. -/
def notFoundError : JsError :=
  { message := "Migration not found" }

/-- The `TypeError` raised by `sanitizeRepoName(undefined)` when the
source locator has fewer than two `/`-separated parts (line 36-37). -/
def undefinedNameError : JsError :=
  { message := "Cannot read properties of undefined (reading toLowerCase)" }

deriving instance DecidableEq for Except

/-- Outcomes of the external calls made by one engine run.  `Except`
fields carry the thrown error or the produced value; `Bool` fields tell
whether the corresponding git subprocess exits non-zero; `rmFails` tells
whether the final `rmSync` raises; `now` stands for the run's clock. -/
structure Env where
  decryptAzure : Except JsError String
  decryptGithub : Except JsError String
  mkdtemp : Except JsError String
  cloneFails : Bool
  createRepo : Except JsError Unit
  setUrlFails : Bool
  pushFails : Bool
  rmFails : Bool
  now : Nat
deriving DecidableEq, Repr

/-- What the `try` block of `migrateRepository` leaves behind: the
storage state, the committed record versions in order, the temporary
directory if one was created, the error that escaped the block (if any),
and the intermediate strings the run computed. -/
structure BodyOut where
  st : MemState
  commits : List Migration
  tempDir : Option String
  thrown : Option JsError
  sanitizedName : Option String
  createNameUsed : Option String
  pushUrlUsed : Option String
deriving DecidableEq, Repr

/-- The `try` block of `migrateRepository` (routes lines 27-89), stage by
stage in source order. -/
def migrateBody (env : Env) (migration : Migration) (st0 : MemState) : BodyOut :=
  -- line 29: await storage.updateMigrationStatus(migration.id, "in_progress")
  match updateMigrationStatus migration.id MStatus.in_progress env.now st0 with
  | none => ⟨st0, [], none, some notFoundError, none, none, none⟩
  | some (r1, st1) =>
  -- line 30: await storage.updateMigrationProgress(migration.id, 10)
  match updateMigrationProgress migration.id 10 st1 with
  | none => ⟨st1, [r1], none, some notFoundError, none, none, none⟩
  | some (r2, st2) =>
  -- lines 32-33: decrypt both stored tokens
  match env.decryptAzure with
  | .error e => ⟨st2, [r1, r2], none, some e, none, none, none⟩
  | .ok azureToken =>
  match env.decryptGithub with
  | .error e => ⟨st2, [r1, r2], none, some e, none, none, none⟩
  | .ok githubToken =>
  -- lines 36-37: parse the source name and normalize it
  match lastTwoSnd (splitOnSlash migration.sourceRepo.data) with
  | none => ⟨st2, [r1, r2], none, some undefinedNameError, none, none, none⟩
  | some sourceName =>
  let sanitizedRepoName : String := sanitizeRepoName ⟨sourceName⟩
  -- line 40: progress 20
  match updateMigrationProgress migration.id 20 st2 with
  | none => ⟨st2, [r1, r2], none, some notFoundError, some sanitizedRepoName, none, none⟩
  | some (r3, st3) =>
  -- line 43: tempDir = mkdtempSync(join(tmpdir(), 'repo-migration-'))
  match env.mkdtemp with
  | .error e => ⟨st3, [r1, r2, r3], none, some e, some sanitizedRepoName, none, none⟩
  | .ok tempDir =>
  -- line 45: progress 40
  match updateMigrationProgress migration.id 40 st3 with
  | none =>
    ⟨st3, [r1, r2, r3], some tempDir, some notFoundError, some sanitizedRepoName, none, none⟩
  | some (r4, st4) =>
  -- lines 48-49: mirror-clone with the plaintext azure token in the URL
  let azureTail : String :=
    ⟨(splitSecondPiece "dev.azure.com/".data migration.sourceRepo.data).getD "undefined".data⟩
  let azureUrl : String := "https://:" ++ azureToken ++ "@dev.azure.com/" ++ azureTail
  let cloneCmd : String := "git clone --mirror \"" ++ azureUrl ++ "\" ."
  if env.cloneFails then
    ⟨st4, [r1, r2, r3, r4], some tempDir, some (execSyncError cloneCmd),
      some sanitizedRepoName, none, none⟩
  else
  -- lines 52-74: ensure the target repository exists; a 422 response is swallowed
  let createName : Option String := ((splitOnSlash migration.targetRepo.data)[1]?).map (⟨·⟩)
  let createOutcome : Option JsError :=
    match env.createRepo with
    | .ok _ => none
    | .error e => if e.responseStatus = some 422 then none else some e
  match createOutcome with
  | some e =>
    ⟨st4, [r1, r2, r3, r4], some tempDir, some e, some sanitizedRepoName, createName, none⟩
  | none =>
  -- lines 77-78: re-point origin at the target with the plaintext github token
  let githubUrl : String := "https://" ++ githubToken ++ "@github.com/" ++ migration.targetRepo ++ ".git"
  let setUrlCmd : String := "git remote set-url origin \"" ++ githubUrl ++ "\""
  if env.setUrlFails then
    ⟨st4, [r1, r2, r3, r4], some tempDir, some (execSyncError setUrlCmd),
      some sanitizedRepoName, createName, some githubUrl⟩
  else
  -- line 81: git push --mirror
  if env.pushFails then
    ⟨st4, [r1, r2, r3, r4], some tempDir, some (execSyncError "git push --mirror"),
      some sanitizedRepoName, createName, some githubUrl⟩
  else
  -- line 83: progress 90
  match updateMigrationProgress migration.id 90 st4 with
  | none =>
    ⟨st4, [r1, r2, r3, r4], some tempDir, some notFoundError,
      some sanitizedRepoName, createName, some githubUrl⟩
  | some (r5, st5) =>
  -- line 86: status completed
  match updateMigrationStatus migration.id MStatus.completed env.now st5 with
  | none =>
    ⟨st5, [r1, r2, r3, r4, r5], some tempDir, some notFoundError,
      some sanitizedRepoName, createName, some githubUrl⟩
  | some (r6, st6) =>
  -- line 87: progress 100
  match updateMigrationProgress migration.id 100 st6 with
  | none =>
    ⟨st6, [r1, r2, r3, r4, r5, r6], some tempDir, some notFoundError,
      some sanitizedRepoName, createName, some githubUrl⟩
  | some (r7, st7) =>
    ⟨st7, [r1, r2, r3, r4, r5, r6, r7], some tempDir, none,
      some sanitizedRepoName, createName, some githubUrl⟩

/-- The outcome of one full `migrateRepository` invocation. -/
structure RunResult where
  finalState : MemState
  commits : List Migration
  tempDir : Option String
  thrown : Option JsError
  escaped : Bool
  rmAttempted : Bool
  rmFailed : Bool
  sanitizedName : Option String
  createNameUsed : Option String
  pushUrlUsed : Option String
deriving DecidableEq, Repr

/-- The `catch` block (routes lines 90-94): convert the thrown error to a
string, commit `failed`, then commit the error text.  A storage throw
inside the block escapes the function (reported as `escaped`). -/
def catchBlock (env : Env) (migrationId : Nat) (st : MemState)
    (commits : List Migration) (thrown : Option JsError) :
    MemState × List Migration × Bool :=
  match thrown with
  | none => (st, commits, false)
  | some e =>
    match updateMigrationStatus migrationId MStatus.failed env.now st with
    | none => (st, commits, true)
    | some (rf, stf) =>
      match updateMigrationError migrationId (errorMessage e) stf with
      | none => (stf, commits ++ [rf], true)
      | some (re, ste) => (ste, commits ++ [rf, re], false)

/-- `migrateRepository` (routes lines 25-106): the `try` body, the
`catch` conversion to a terminal `failed` record, and the `finally`
workspace removal whose own failure is logged and swallowed (it touches
no storage state). -/
def migrateRepository (env : Env) (migration : Migration) (st0 : MemState) :
    RunResult :=
  let b := migrateBody env migration st0
  let after := catchBlock env migration.id b.st b.commits b.thrown
  { finalState := after.1
    commits := after.2.1
    tempDir := b.tempDir
    thrown := b.thrown
    escaped := after.2.2
    rmAttempted := b.tempDir.isSome
    rmFailed := b.tempDir.isSome && env.rmFails
    sanitizedName := b.sanitizedName
    createNameUsed := b.createNameUsed
    pushUrlUsed := b.pushUrlUsed }

/-! ## The administrative operation language (routes lines 385-420)

Beyond the engine, the API exposes record creation and the direct
progress/error setters; `Op` is the language of these record mutations,
used to state trace invariants.  A mutator on an unknown identifier
answers 404 and leaves the store unchanged. -/

inductive Op
  | create (ins : InsertMigration)
  | setStatus (id : Nat) (s : MStatus) (now : Nat)
  | setProgress (id : Nat) (p : Int)
  | setError (id : Nat) (e : String)
deriving DecidableEq, Repr

/-- One administrative operation applied to the store. -/
def stepOp (st : MemState) : Op → MemState
  | Op.create ins => (createMigration ins st).2
  | Op.setStatus id s now =>
    match updateMigrationStatus id s now st with
    | some (_, st') => st'
    | none => st
  | Op.setProgress id p =>
    match updateMigrationProgress id p st with
    | some (_, st') => st'
    | none => st
  | Op.setError id e =>
    match updateMigrationError id e st with
    | some (_, st') => st'
    | none => st

/-- A sequence of administrative operations, applied left to right. -/
def runOps (ops : List Op) (st : MemState) : MemState :=
  ops.foldl stepOp st

/-- Fold a list of creation payloads through `createMigration`, returning
the issued identifiers in order. -/
def createManyIds (reqs : List InsertMigration) (st : MemState) : List Nat :=
  match reqs with
  | [] => []
  | ins :: rest =>
    let p := createMigration ins st
    p.1.id :: createManyIds rest p.2

/-- Non-decreasing progression of a list of progress values. -/
def progressMono : List Int → Bool
  | [] => true
  | [_] => true
  | a :: b :: t => decide (a ≤ b) && progressMono (b :: t)

/-! ## Concrete fixtures for witnesses and counterexamples -/

/-- A creation payload as the route builds it for a source repository
named `My Repo!!` under organization `org`, migrating to `tgtorg`. -/
def insW : InsertMigration :=
  apiMigrationData "https://dev.azure.com/org/proj/_git/My Repo!!" "tgtorg" "My Repo!!"
    "encryptedAzure" "encryptedGithub"

/-- The record created from `insW` in the fresh store. -/
def migW : Migration := (createMigration insW initState).1

/-- The store after creating `migW`. -/
def stW : MemState := (createMigration insW initState).2

/-- An environment in which every external call succeeds. -/
def envOkW : Env :=
  { decryptAzure := .ok "AZSECRET"
    decryptGithub := .ok "GHSECRET"
    mkdtemp := .ok "/tmp/repo-migration-abc123"
    cloneFails := false
    createRepo := .ok ()
    setUrlFails := false
    pushFails := false
    rmFails := false
    now := 7 }

/-- As `envOkW` but the mirror clone exits non-zero. -/
def envCloneFailW : Env := { envOkW with cloneFails := true }

/-- As `envOkW` but the target-repository creation answers 422
(`name already exists on this account`). -/
def envCreate422W : Env :=
  { envOkW with
    createRepo := .error
      { message := "Request failed with status code 422"
        responseStatus := some 422
        responseDataMessage := some "Repository creation failed." } }

/-- As `envOkW` but the target-repository creation answers 403. -/
def envCreate403W : Env :=
  { envOkW with
    createRepo := .error
      { message := "Request failed with status code 403"
        responseStatus := some 403
        responseDataMessage := some "Resource not accessible by integration" } }

/-! ## Verification-side predicates -/

/-- No two adjacent dashes. -/
def NoConsec (l : List Char) : Prop :=
  l.Chain' fun a b => ¬(a = '-' ∧ b = '-')

/-! ## Normal-form lemmas for `sanitizeRepoName` -/

theorem isAllowed_jsToLower_fix (c : Char) (h : isAllowed c = true) :
    jsToLower c = c := by
  unfold jsToLower
  rw [if_neg]
  rintro ⟨h1, h2⟩
  simp only [isAllowed, Bool.or_eq_true, Bool.and_eq_true, decide_eq_true_eq] at h
  rcases h with ((((⟨a1, a2⟩ | ⟨b1, b2⟩) | hc) | hc) | hc)
  · omega
  · omega
  · subst hc; exact absurd h1 (by decide)
  · subst hc; exact absurd h2 (by decide)
  · subst hc; exact absurd h1 (by decide)

theorem replaceDisallowed_allowed (l : List Char) :
    ∀ c ∈ replaceDisallowed l, isAllowed c = true := by
  intro c hc
  simp only [replaceDisallowed, List.mem_map] at hc
  obtain ⟨a, _, ha⟩ := hc
  by_cases h : isAllowed a = true
  · rw [if_pos h] at ha; exact ha ▸ h
  · rw [if_neg (by simpa using h)] at ha; subst ha; decide

theorem mem_collapseDashes (l : List Char) :
    ∀ c ∈ collapseDashes l, c ∈ l := by
  induction l with
  | nil => simp [collapseDashes]
  | cons a t ih =>
    cases t with
    | nil => simp [collapseDashes]
    | cons b t' =>
      intro c hc
      by_cases h : a = '-' ∧ b = '-'
      · rw [show collapseDashes (a :: b :: t') = collapseDashes (b :: t') by
          simp [collapseDashes, h]] at hc
        exact List.mem_cons_of_mem a (ih c hc)
      · rw [show collapseDashes (a :: b :: t') = a :: collapseDashes (b :: t') by
          simp [collapseDashes, h]] at hc
        rcases List.mem_cons.mp hc with rfl | hc
        · exact List.mem_cons_self _ _
        · exact List.mem_cons_of_mem a (ih c hc)

theorem collapseDashes_cons (d : Char) (rest : List Char) :
    ∃ t, collapseDashes (d :: rest) = d :: t := by
  induction rest with
  | nil => exact ⟨[], rfl⟩
  | cons b t' ih =>
    by_cases h : d = '-' ∧ b = '-'
    · obtain ⟨hd, hb⟩ := h
      obtain ⟨t, ht⟩ := ih
      refine ⟨t, ?_⟩
      rw [show collapseDashes (d :: b :: t') = collapseDashes (b :: t') by
        simp [collapseDashes, hd, hb]]
      rw [hb, ← hd, ht]
    · exact ⟨collapseDashes (b :: t'), by simp [collapseDashes, h]⟩

theorem noConsec_collapseDashes (l : List Char) : NoConsec (collapseDashes l) := by
  induction l with
  | nil => simp [collapseDashes, NoConsec]
  | cons a t ih =>
    cases t with
    | nil => simp [collapseDashes, NoConsec]
    | cons b t' =>
      by_cases h : a = '-' ∧ b = '-'
      · rw [show collapseDashes (a :: b :: t') = collapseDashes (b :: t') by
          simp [collapseDashes, h]]
        exact ih
      · rw [show collapseDashes (a :: b :: t') = a :: collapseDashes (b :: t') by
          simp [collapseDashes, h]]
        obtain ⟨tt, htt⟩ := collapseDashes_cons b t'
        rw [htt]
        rw [htt] at ih
        exact List.chain'_cons.mpr ⟨h, ih⟩

theorem collapseDashes_of_noConsec (l : List Char) (h : NoConsec l) :
    collapseDashes l = l := by
  induction l with
  | nil => rfl
  | cons a t ih =>
    cases t with
    | nil => rfl
    | cons b t' =>
      rcases List.chain'_cons.mp h with ⟨hab, ht⟩
      rw [show collapseDashes (a :: b :: t') = a :: collapseDashes (b :: t') by
        simp [collapseDashes, hab]]
      rw [ih ht]

theorem noConsec_reverse (l : List Char) (h : NoConsec l) : NoConsec l.reverse := by
  unfold NoConsec at h ⊢
  rw [List.chain'_reverse]
  exact h.imp fun hab => by tauto

theorem trimLeadDash_head (l : List Char) (h : NoConsec l) :
    (trimLeadDash l).head? ≠ some '-' := by
  cases l with
  | nil => simp [trimLeadDash]
  | cons c t =>
    by_cases hc : c = '-'
    · rw [show trimLeadDash (c :: t) = t by simp [trimLeadDash, hc]]
      cases t with
      | nil => simp
      | cons b t' =>
        rcases List.chain'_cons.mp h with ⟨hab, _⟩
        subst hc
        simp only [List.head?_cons, ne_eq, Option.some.injEq]
        intro hb
        exact hab ⟨rfl, hb⟩
    · rw [show trimLeadDash (c :: t) = c :: t by simp [trimLeadDash, hc]]
      simp only [List.head?_cons, ne_eq, Option.some.injEq]
      exact hc

theorem noConsec_trimLeadDash (l : List Char) (h : NoConsec l) :
    NoConsec (trimLeadDash l) := by
  cases l with
  | nil => simpa [trimLeadDash] using h
  | cons c t =>
    by_cases hc : c = '-'
    · rw [show trimLeadDash (c :: t) = t by simp [trimLeadDash, hc]]
      exact h.tail
    · rw [show trimLeadDash (c :: t) = c :: t by simp [trimLeadDash, hc]]
      exact h

theorem mem_trimLeadDash (l : List Char) : ∀ c ∈ trimLeadDash l, c ∈ l := by
  cases l with
  | nil => simp [trimLeadDash]
  | cons a t =>
    intro c hc
    by_cases ha : a = '-'
    · rw [show trimLeadDash (a :: t) = t by simp [trimLeadDash, ha]] at hc
      exact List.mem_cons_of_mem a hc
    · rwa [show trimLeadDash (a :: t) = a :: t by simp [trimLeadDash, ha]] at hc

theorem getLast?_trimLeadDash (l : List Char) (h : l.getLast? ≠ some '-') :
    (trimLeadDash l).getLast? ≠ some '-' := by
  cases l with
  | nil => exact h
  | cons c t =>
    by_cases hc : c = '-'
    · rw [show trimLeadDash (c :: t) = t by simp [trimLeadDash, hc]]
      cases t with
      | nil => simp
      | cons b t' => rwa [List.getLast?_cons_cons] at h
    · rwa [show trimLeadDash (c :: t) = c :: t by simp [trimLeadDash, hc]]

theorem map_jsToLower_id (l : List Char) (h : ∀ c ∈ l, isAllowed c = true) :
    l.map jsToLower = l := by
  induction l with
  | nil => rfl
  | cons a t ih =>
    simp only [List.map_cons]
    rw [isAllowed_jsToLower_fix a (h a (List.mem_cons_self _ _)),
      ih fun c hc => h c (List.mem_cons_of_mem a hc)]

theorem replaceDisallowed_id (l : List Char) (h : ∀ c ∈ l, isAllowed c = true) :
    replaceDisallowed l = l := by
  induction l with
  | nil => rfl
  | cons a t ih =>
    simp only [replaceDisallowed, List.map_cons]
    rw [if_pos (h a (List.mem_cons_self _ _))]
    have := ih fun c hc => h c (List.mem_cons_of_mem a hc)
    simpa [replaceDisallowed] using this

theorem trimLeadDash_eq (l : List Char) (h : l.head? ≠ some '-') :
    trimLeadDash l = l := by
  cases l with
  | nil => rfl
  | cons c t =>
    simp only [List.head?_cons, ne_eq, Option.some.injEq] at h
    simp [trimLeadDash, h]

theorem trimTrailDash_eq (l : List Char) (h : l.getLast? ≠ some '-') :
    trimTrailDash l = l := by
  unfold trimTrailDash
  rw [trimLeadDash_eq l.reverse (by rwa [List.head?_reverse]), List.reverse_reverse]

theorem sanitizeList_nf (l : List Char) :
    (∀ c ∈ sanitizeList l, isAllowed c = true) ∧ NoConsec (sanitizeList l) ∧
      (sanitizeList l).head? ≠ some '-' ∧ (sanitizeList l).getLast? ≠ some '-' := by
  unfold sanitizeList trimTrailDash
  set r2 := replaceDisallowed (l.map jsToLower) with hr2
  set a := collapseDashes r2 with ha
  set b := trimLeadDash a with hb
  have hAa : ∀ c ∈ a, isAllowed c = true := fun c hc =>
    replaceDisallowed_allowed _ c (mem_collapseDashes _ c hc)
  have hNa : NoConsec a := noConsec_collapseDashes r2
  have hAb : ∀ c ∈ b, isAllowed c = true := fun c hc => hAa c (mem_trimLeadDash a c hc)
  have hNb : NoConsec b := noConsec_trimLeadDash a hNa
  have hHb : b.head? ≠ some '-' := trimLeadDash_head a hNa
  refine ⟨?_, ?_, ?_, ?_⟩
  · intro c hc
    rw [List.mem_reverse] at hc
    have hm := mem_trimLeadDash b.reverse c hc
    rw [List.mem_reverse] at hm
    exact hAb c hm
  · exact noConsec_reverse _ (noConsec_trimLeadDash _ (noConsec_reverse b hNb))
  · rw [List.head?_reverse]
    exact getLast?_trimLeadDash b.reverse (by rw [List.getLast?_reverse]; exact hHb)
  · rw [List.getLast?_reverse]
    exact trimLeadDash_head b.reverse (noConsec_reverse b hNb)

theorem sanitizeList_eq_self (l : List Char)
    (h1 : ∀ c ∈ l, isAllowed c = true) (h2 : NoConsec l)
    (h3 : l.head? ≠ some '-') (h4 : l.getLast? ≠ some '-') :
    sanitizeList l = l := by
  unfold sanitizeList
  rw [map_jsToLower_id l h1, replaceDisallowed_id l h1,
    collapseDashes_of_noConsec l h2, trimLeadDash_eq l h3, trimTrailDash_eq l h4]

theorem sanitizeList_idem (l : List Char) :
    sanitizeList (sanitizeList l) = sanitizeList l := by
  obtain ⟨h1, h2, h3, h4⟩ := sanitizeList_nf l
  exact sanitizeList_eq_self _ h1 h2 h3 h4

/-- C9: the repository-name normalization is idempotent
(`sanitizeRepoName (sanitizeRepoName s) = sanitizeRepoName s` for every
string `s`), and on the spec's two examples it yields `"my-repo"` and
`"foo"`. -/
theorem c9_sanitize_idempotent :
    (∀ s : String, sanitizeRepoName (sanitizeRepoName s) = sanitizeRepoName s) ∧
      sanitizeRepoName "My Repo!!" = "my-repo" ∧ sanitizeRepoName "--Foo--" = "foo" := by
  refine ⟨fun s => ?_, by decide, by decide⟩
  have h : sanitizeRepoName (sanitizeRepoName s) = ⟨sanitizeList (sanitizeList s.data)⟩ := rfl
  rw [h, sanitizeList_idem]
  rfl

/-! ## Storage map lemmas -/

theorem mapLookup_mapSet_self (l : List (Nat × Migration)) (id : Nat) (v : Migration) :
    mapLookup (mapSet l id v) id = some v := by
  induction l with
  | nil => simp [mapSet, mapLookup]
  | cons p t ih =>
    obtain ⟨k, w⟩ := p
    by_cases h : k = id
    · simp [mapSet, mapLookup, h]
    · simp [mapSet, mapLookup, h, ih]

theorem mapLookup_mapSet_ne (l : List (Nat × Migration)) (id id' : Nat) (v : Migration)
    (h : id' ≠ id) : mapLookup (mapSet l id v) id' = mapLookup l id' := by
  induction l with
  | nil => simp [mapSet, mapLookup, Ne.symm h]
  | cons p t ih =>
    obtain ⟨k, w⟩ := p
    by_cases hk : k = id
    · subst hk
      simp [mapSet, mapLookup, Ne.symm h]
    · simp [mapSet, mapLookup, hk, ih]

theorem mem_mapSet (l : List (Nat × Migration)) (id : Nat) (v : Migration) :
    ∀ q ∈ mapSet l id v, q ∈ l ∨ q = (id, v) := by
  induction l with
  | nil => simp [mapSet]
  | cons p t ih =>
    obtain ⟨k, w⟩ := p
    intro q hq
    by_cases h : k = id
    · rw [show mapSet ((k, w) :: t) id v = (k, v) :: t by simp [mapSet, h]] at hq
      rcases List.mem_cons.mp hq with rfl | hq
      · right; rw [h]
      · left; exact List.mem_cons_of_mem _ hq
    · rw [show mapSet ((k, w) :: t) id v = (k, w) :: mapSet t id v by simp [mapSet, h]] at hq
      rcases List.mem_cons.mp hq with rfl | hq
      · left; exact List.mem_cons_self _ _
      · rcases ih q hq with hq' | hq'
        · left; exact List.mem_cons_of_mem _ hq'
        · right; exact hq'

theorem idsBelow_createMigration (ins : InsertMigration) (st : MemState)
    (h : idsBelow st) : idsBelow (createMigration ins st).2 := by
  intro p hp
  rcases mem_mapSet _ _ _ p hp with hp' | hp'
  · exact Nat.lt_succ_of_lt (h p hp')
  · rw [hp']
    exact Nat.lt_succ_self _

theorem idsBelow_mapSet_existing (st : MemState) (id : Nat) (v : Migration)
    (h : idsBelow st) (hid : id < st.currentId) :
    idsBelow ⟨mapSet st.migrations id v, st.currentId⟩ := by
  intro p hp
  rcases mem_mapSet _ _ _ p hp with hp' | hp'
  · exact h p hp'
  · rw [hp']
    exact hid

theorem mapLookup_lt (l : List (Nat × Migration)) (id : Nat) (m : Migration)
    (bound : Nat) (h : ∀ p ∈ l, p.1 < bound) (hm : mapLookup l id = some m) :
    id < bound := by
  induction l with
  | nil => simp [mapLookup] at hm
  | cons p t ih =>
    obtain ⟨k, w⟩ := p
    by_cases hk : k = id
    · subst hk
      exact h (k, w) (List.mem_cons_self _ _)
    · rw [show mapLookup ((k, w) :: t) id = mapLookup t id by simp [mapLookup, hk]] at hm
      exact ih (fun q hq => h q (List.mem_cons_of_mem _ hq)) hm

theorem createManyIds_eq_range (reqs : List InsertMigration) (st : MemState) :
    createManyIds reqs st = List.range' st.currentId reqs.length := by
  induction reqs generalizing st with
  | nil => rfl
  | cons ins rest ih =>
    show (createMigration ins st).1.id :: createManyIds rest (createMigration ins st).2
        = List.range' st.currentId (rest.length + 1)
    rw [ih]
    rfl

/-! ## C4: record creation -/

/-- C4: a record created through the creation boundary (which always
submits `status = pending`) starts `pending` with `progress = 0`,
`error = null`, no timestamps, and carries the identifier `currentId`,
which is bumped by one; the new identifier differs from every identifier
in the store (given the `idsBelow` invariant, which creation preserves),
and any sequence of creations issues the consecutive range of
identifiers, so identifiers are monotonically assigned and never
reused. -/
theorem c4_create_pending_unique (remoteUrl targetOrg sourceName encA encG : String)
    (st : MemState) (hinv : idsBelow st) :
    (apiCreateMigration remoteUrl targetOrg sourceName encA encG st).1.status = MStatus.pending ∧
    (apiCreateMigration remoteUrl targetOrg sourceName encA encG st).1.progress = 0 ∧
    (apiCreateMigration remoteUrl targetOrg sourceName encA encG st).1.error = none ∧
    (apiCreateMigration remoteUrl targetOrg sourceName encA encG st).1.startedAt = none ∧
    (apiCreateMigration remoteUrl targetOrg sourceName encA encG st).1.completedAt = none ∧
    (apiCreateMigration remoteUrl targetOrg sourceName encA encG st).1.id = st.currentId ∧
    (apiCreateMigration remoteUrl targetOrg sourceName encA encG st).2.currentId
      = st.currentId + 1 ∧
    (∀ p ∈ st.migrations,
      p.1 ≠ (apiCreateMigration remoteUrl targetOrg sourceName encA encG st).1.id) ∧
    idsBelow (apiCreateMigration remoteUrl targetOrg sourceName encA encG st).2 ∧
    (∀ reqs s, createManyIds reqs s = List.range' s.currentId reqs.length) := by
  refine ⟨rfl, rfl, rfl, rfl, rfl, rfl, rfl, ?_, ?_, fun reqs s => createManyIds_eq_range reqs s⟩
  · intro p hp heq
    have hlt := hinv p hp
    rw [show (apiCreateMigration remoteUrl targetOrg sourceName encA encG st).1.id
        = st.currentId from rfl] at heq
    omega
  · exact idsBelow_createMigration _ _ hinv

/-- Witness for C4 at a concrete creation request on the fresh store. -/
theorem c4_witness :
    (apiCreateMigration "https://dev.azure.com/o/p/_git/r" "tgt" "r" "ea" "eg"
      initState).1.status = MStatus.pending :=
  (c4_create_pending_unique "https://dev.azure.com/o/p/_git/r" "tgt" "r" "ea" "eg"
    initState (by intro p hp; simp [initState] at hp)).1

/-! ## C10: `startedAt` is stamped exactly once -/

theorem startedAt_invariant (ops : List Op) (id : Nat) :
    ∀ st : MemState, (∀ r, getMigration id st = some r → r.startedAt = none) →
      (∀ now, Op.setStatus id MStatus.in_progress now ∉ ops) →
      ∀ r, getMigration id (runOps ops st) = some r → r.startedAt = none := by
  induction ops with
  | nil => intro st hst _; exact hst
  | cons op rest ih =>
    intro st hst hops
    have hrw : runOps (op :: rest) st = runOps rest (stepOp st op) := rfl
    rw [hrw]
    refine ih (stepOp st op) ?_ (fun now h => hops now (List.mem_cons_of_mem _ h))
    cases op with
    | create ins =>
      intro r hr
      have h2 : getMigration id (stepOp st (Op.create ins)) =
          mapLookup (mapSet st.migrations st.currentId (createMigration ins st).1) id := rfl
      rw [h2] at hr
      by_cases hcid : id = st.currentId
      · subst hcid
        rw [mapLookup_mapSet_self] at hr
        injection hr with hr
        rw [← hr]
        rfl
      · rw [mapLookup_mapSet_ne _ _ _ _ hcid] at hr
        exact hst r hr
    | setStatus id' s now =>
      intro r hr
      cases hm : getMigration id' st with
      | none =>
        simp only [stepOp, updateMigrationStatus, hm] at hr
        exact hst r hr
      | some m =>
        simp only [stepOp, updateMigrationStatus, hm] at hr
        simp only [getMigration] at hr
        by_cases hid : id = id'
        · subst hid
          rw [mapLookup_mapSet_self] at hr
          injection hr with hr
          rw [← hr]
          have hsne : ¬(s = MStatus.in_progress) := by
            intro hs
            subst hs
            exact hops now (List.mem_cons_self _ _)
          show (if s = MStatus.in_progress ∧ m.startedAt = none then some now
            else m.startedAt) = none
          rw [if_neg (fun hc => hsne hc.1)]
          exact hst m hm
        · rw [mapLookup_mapSet_ne _ _ _ _ hid] at hr
          exact hst r hr
    | setProgress id' p =>
      intro r hr
      cases hm : getMigration id' st with
      | none =>
        simp only [stepOp, updateMigrationProgress, hm] at hr
        exact hst r hr
      | some m =>
        simp only [stepOp, updateMigrationProgress, hm] at hr
        simp only [getMigration] at hr
        by_cases hid : id = id'
        · subst hid
          rw [mapLookup_mapSet_self] at hr
          injection hr with hr
          rw [← hr]
          exact hst m hm
        · rw [mapLookup_mapSet_ne _ _ _ _ hid] at hr
          exact hst r hr
    | setError id' e =>
      intro r hr
      cases hm : getMigration id' st with
      | none =>
        simp only [stepOp, updateMigrationError, hm] at hr
        exact hst r hr
      | some m =>
        simp only [stepOp, updateMigrationError, hm] at hr
        simp only [getMigration] at hr
        by_cases hid : id = id'
        · subst hid
          rw [mapLookup_mapSet_self] at hr
          injection hr with hr
          rw [← hr]
          exact hst m hm
        · rw [mapLookup_mapSet_ne _ _ _ _ hid] at hr
          exact hst r hr

/-- C10: `startedAt` is unset at creation; a status update stamps it with
the current instant exactly when the new status is `in_progress` and it
was unset, and otherwise leaves it unchanged; the progress and error
mutators never touch it; and along any operation sequence that never sets
a record's status to `in_progress`, that record's `startedAt` stays
unset. -/
theorem c10_startedAt_once :
    (∀ ins st, (createMigration ins st).1.startedAt = none) ∧
    (∀ id status now st m, getMigration id st = some m →
      ∀ r st', updateMigrationStatus id status now st = some (r, st') →
        r.startedAt = if status = MStatus.in_progress ∧ m.startedAt = none
          then some now else m.startedAt) ∧
    (∀ id p st m, getMigration id st = some m →
      ∀ r st', updateMigrationProgress id p st = some (r, st') →
        r.startedAt = m.startedAt) ∧
    (∀ id e st m, getMigration id st = some m →
      ∀ r st', updateMigrationError id e st = some (r, st') →
        r.startedAt = m.startedAt) ∧
    (∀ ops id, (∀ now, Op.setStatus id MStatus.in_progress now ∉ ops) →
      ∀ r, getMigration id (runOps ops initState) = some r → r.startedAt = none) := by
  refine ⟨fun ins st => rfl, ?_, ?_, ?_, ?_⟩
  · intro id status now st m hm r st' hupd
    simp only [updateMigrationStatus, hm, Option.some.injEq, Prod.mk.injEq] at hupd
    obtain ⟨rfl, rfl⟩ := hupd
    rfl
  · intro id p st m hm r st' hupd
    simp only [updateMigrationProgress, hm, Option.some.injEq, Prod.mk.injEq] at hupd
    obtain ⟨rfl, rfl⟩ := hupd
    rfl
  · intro id e st m hm r st' hupd
    simp only [updateMigrationError, hm, Option.some.injEq, Prod.mk.injEq] at hupd
    obtain ⟨rfl, rfl⟩ := hupd
    rfl
  · intro ops id hops
    exact startedAt_invariant ops id initState
      (fun r hr => by simp [getMigration, initState, mapLookup] at hr) hops

/-- Witness for C10: a record created and then marked `completed` (never
`in_progress`) still has `startedAt` unset. -/
theorem c10_witness :
    (getMigration 1 (runOps [Op.create insW, Op.setStatus 1 MStatus.completed 3]
      initState)).map (fun r => r.startedAt) = some none := by
  obtain ⟨r, hr⟩ := Option.isSome_iff_exists.mp
    (by decide :
      (getMigration 1 (runOps [Op.create insW, Op.setStatus 1 MStatus.completed 3]
        initState)).isSome)
  rw [hr, Option.map_some']
  rw [c10_startedAt_once.2.2.2.2 [Op.create insW, Op.setStatus 1 MStatus.completed 3] 1
    (by intro now h; simp [List.mem_cons] at h) r hr]

/-! ## C3: error is non-null iff status is failed -/

/-- C3 (amended): for a record that exists in the store with a null
error field, the final committed state of an engine run satisfies
`error != null` iff `status = failed`.  (As stated over all reachable
records the claim is false: the direct error setter commits a non-null
error without touching the status — see the counterexample.) -/
theorem c3_engine_error_iff_failed (env : Env) (m : Migration) (st0 : MemState)
    (h : getMigration m.id st0 = some m) (he : m.error = none) :
    ∀ r, getMigration m.id (migrateRepository env m st0).finalState = some r →
      (r.error ≠ none ↔ r.status = MStatus.failed) := by
  intro r hr
  have hm0 : mapLookup st0.migrations m.id = some m := h
  obtain ⟨da, dg, mk, cf, cr, sf, pf, rf, now⟩ := env
  cases da with
  | error e =>
    simp [migrateRepository, migrateBody, catchBlock, updateMigrationStatus,
      updateMigrationProgress, updateMigrationError, getMigration, hm0,
      mapLookup_mapSet_self] at hr
    subst hr
    simp
  | ok azureToken =>
    cases dg with
    | error e =>
      simp [migrateRepository, migrateBody, catchBlock, updateMigrationStatus,
        updateMigrationProgress, updateMigrationError, getMigration, hm0,
        mapLookup_mapSet_self] at hr
      subst hr
      simp
    | ok githubToken =>
      cases hname : lastTwoSnd (splitOnSlash m.sourceRepo.data) with
      | none =>
        simp [migrateRepository, migrateBody, catchBlock, updateMigrationStatus,
          updateMigrationProgress, updateMigrationError, getMigration, hm0,
          mapLookup_mapSet_self, hname] at hr
        subst hr
        simp
      | some nm =>
        cases mk with
        | error e =>
          simp [migrateRepository, migrateBody, catchBlock, updateMigrationStatus,
            updateMigrationProgress, updateMigrationError, getMigration, hm0,
            mapLookup_mapSet_self, hname] at hr
          subst hr
          simp
        | ok tempDir =>
          cases cf with
          | true =>
            simp [migrateRepository, migrateBody, catchBlock, updateMigrationStatus,
              updateMigrationProgress, updateMigrationError, getMigration, hm0,
              mapLookup_mapSet_self, hname] at hr
            subst hr
            simp
          | false =>
            cases cr with
            | error e =>
              by_cases h422 : e.responseStatus = some 422
              · cases sf with
                | true =>
                  simp [migrateRepository, migrateBody, catchBlock, updateMigrationStatus,
                    updateMigrationProgress, updateMigrationError, getMigration, hm0,
                    mapLookup_mapSet_self, hname, h422] at hr
                  subst hr
                  simp
                | false =>
                  cases pf with
                  | true =>
                    simp [migrateRepository, migrateBody, catchBlock, updateMigrationStatus,
                      updateMigrationProgress, updateMigrationError, getMigration, hm0,
                      mapLookup_mapSet_self, hname, h422] at hr
                    subst hr
                    simp
                  | false =>
                    simp [migrateRepository, migrateBody, catchBlock, updateMigrationStatus,
                      updateMigrationProgress, updateMigrationError, getMigration, hm0,
                      mapLookup_mapSet_self, hname, h422] at hr
                    subst hr
                    simp [he]
              · simp [migrateRepository, migrateBody, catchBlock, updateMigrationStatus,
                  updateMigrationProgress, updateMigrationError, getMigration, hm0,
                  mapLookup_mapSet_self, hname, h422] at hr
                subst hr
                simp
            | ok u =>
              cases sf with
              | true =>
                simp [migrateRepository, migrateBody, catchBlock, updateMigrationStatus,
                  updateMigrationProgress, updateMigrationError, getMigration, hm0,
                  mapLookup_mapSet_self, hname] at hr
                subst hr
                simp
              | false =>
                cases pf with
                | true =>
                  simp [migrateRepository, migrateBody, catchBlock, updateMigrationStatus,
                    updateMigrationProgress, updateMigrationError, getMigration, hm0,
                    mapLookup_mapSet_self, hname] at hr
                  subst hr
                  simp
                | false =>
                  simp [migrateRepository, migrateBody, catchBlock, updateMigrationStatus,
                    updateMigrationProgress, updateMigrationError, getMigration, hm0,
                    mapLookup_mapSet_self, hname] at hr
                  subst hr
                  simp [he]

/-- C3 counterexample: the direct error-setter route commits a record
with `status = pending` and `error = "boom"`, so `error != null` does
not imply `status = failed` over all reachable records. -/
theorem c3_counterexample :
    (updateMigrationError 1 "boom" stW).map (fun p => (p.1.status, p.1.error))
      = some (MStatus.pending, some "boom") ∧ MStatus.pending ≠ MStatus.failed := by
  decide

/-- Witness for C3 at a concrete all-successful run. -/
theorem c3_witness :
    ((getMigration 1 (migrateRepository envOkW migW stW).finalState).map
      (fun r => decide (r.error ≠ none) == decide (r.status = MStatus.failed)))
      = some true := by
  obtain ⟨r, hr⟩ := Option.isSome_iff_exists.mp
    (by decide : (getMigration 1 (migrateRepository envOkW migW stW).finalState).isSome)
  rw [hr, Option.map_some']
  have h2 := c3_engine_error_iff_failed envOkW migW stW (by decide) (by decide) r hr
  simp [h2]

/-! ## C2: committed states seen by pollers -/

/-- C2 (amended): the FINAL committed state of an engine run on an
existing record never pairs `failed` with a null error nor `completed`
with a progress other than 100.  (As stated over every committed state
the claim is false: the engine commits `completed` before the
progress-100 write and `failed` before the error write, and a poller can
observe those intermediate versions — see the counterexample.) -/
theorem c2_final_state_consistent (env : Env) (m : Migration) (st0 : MemState)
    (h : getMigration m.id st0 = some m) :
    ∀ r, getMigration m.id (migrateRepository env m st0).finalState = some r →
      (r.status = MStatus.failed → r.error ≠ none) ∧
      (r.status = MStatus.completed → r.progress = 100) := by
  intro r hr
  have hm0 : mapLookup st0.migrations m.id = some m := h
  obtain ⟨da, dg, mk, cf, cr, sf, pf, rf, now⟩ := env
  cases da with
  | error e =>
    simp [migrateRepository, migrateBody, catchBlock, updateMigrationStatus,
      updateMigrationProgress, updateMigrationError, getMigration, hm0,
      mapLookup_mapSet_self] at hr
    subst hr
    simp
  | ok azureToken =>
    cases dg with
    | error e =>
      simp [migrateRepository, migrateBody, catchBlock, updateMigrationStatus,
        updateMigrationProgress, updateMigrationError, getMigration, hm0,
        mapLookup_mapSet_self] at hr
      subst hr
      simp
    | ok githubToken =>
      cases hname : lastTwoSnd (splitOnSlash m.sourceRepo.data) with
      | none =>
        simp [migrateRepository, migrateBody, catchBlock, updateMigrationStatus,
          updateMigrationProgress, updateMigrationError, getMigration, hm0,
          mapLookup_mapSet_self, hname] at hr
        subst hr
        simp
      | some nm =>
        cases mk with
        | error e =>
          simp [migrateRepository, migrateBody, catchBlock, updateMigrationStatus,
            updateMigrationProgress, updateMigrationError, getMigration, hm0,
            mapLookup_mapSet_self, hname] at hr
          subst hr
          simp
        | ok tempDir =>
          cases cf with
          | true =>
            simp [migrateRepository, migrateBody, catchBlock, updateMigrationStatus,
              updateMigrationProgress, updateMigrationError, getMigration, hm0,
              mapLookup_mapSet_self, hname] at hr
            subst hr
            simp
          | false =>
            cases cr with
            | error e =>
              by_cases h422 : e.responseStatus = some 422
              · cases sf with
                | true =>
                  simp [migrateRepository, migrateBody, catchBlock, updateMigrationStatus,
                    updateMigrationProgress, updateMigrationError, getMigration, hm0,
                    mapLookup_mapSet_self, hname, h422] at hr
                  subst hr
                  simp
                | false =>
                  cases pf with
                  | true =>
                    simp [migrateRepository, migrateBody, catchBlock, updateMigrationStatus,
                      updateMigrationProgress, updateMigrationError, getMigration, hm0,
                      mapLookup_mapSet_self, hname, h422] at hr
                    subst hr
                    simp
                  | false =>
                    simp [migrateRepository, migrateBody, catchBlock, updateMigrationStatus,
                      updateMigrationProgress, updateMigrationError, getMigration, hm0,
                      mapLookup_mapSet_self, hname, h422] at hr
                    subst hr
                    simp
              ·
                simp [migrateRepository, migrateBody, catchBlock, updateMigrationStatus,
                  updateMigrationProgress, updateMigrationError, getMigration, hm0,
                  mapLookup_mapSet_self, hname, h422] at hr
                subst hr
                simp
            | ok u =>
              cases sf with
              | true =>
                simp [migrateRepository, migrateBody, catchBlock, updateMigrationStatus,
                  updateMigrationProgress, updateMigrationError, getMigration, hm0,
                  mapLookup_mapSet_self, hname] at hr
                subst hr
                simp
              | false =>
                cases pf with
                | true =>
                  simp [migrateRepository, migrateBody, catchBlock, updateMigrationStatus,
                    updateMigrationProgress, updateMigrationError, getMigration, hm0,
                    mapLookup_mapSet_self, hname] at hr
                  subst hr
                  simp
                | false =>
                  simp [migrateRepository, migrateBody, catchBlock, updateMigrationStatus,
                    updateMigrationProgress, updateMigrationError, getMigration, hm0,
                    mapLookup_mapSet_self, hname] at hr
                  subst hr
                  simp

/-- C2 counterexample: the success trace commits a record with
`status = completed` and `progress = 90`, and the failure trace commits
a record with `status = failed` and `error = null`; a poller reading
those previously committed versions observes both forbidden
combinations. -/
theorem c2_counterexample :
    ((migrateRepository envOkW migW stW).commits.any
      (fun r => decide (r.status = MStatus.completed) && decide (r.progress ≠ 100))) = true ∧
    ((migrateRepository envCloneFailW migW stW).commits.any
      (fun r => decide (r.status = MStatus.failed) && decide (r.error = none))) = true := by
  decide

/-- Witness for C2 at a concrete all-successful run. -/
theorem c2_witness :
    ((getMigration 1 (migrateRepository envOkW migW stW).finalState).map
      (fun r => decide (r.status = MStatus.completed) && decide (r.progress = 100)))
      = some true := by
  obtain ⟨r, hr⟩ := Option.isSome_iff_exists.mp
    (by decide : (getMigration 1 (migrateRepository envOkW migW stW).finalState).isSome)
  have hs : (getMigration 1 (migrateRepository envOkW migW stW).finalState).map
      (fun x => x.status) = some MStatus.completed := by decide
  rw [hr, Option.map_some'] at hs
  injection hs with hs
  have hp := (c2_final_state_consistent envOkW migW stW (by decide) r hr).2 hs
  rw [hr, Option.map_some']
  simp [hs, hp]

/-! ## C8: progress bounds and monotonicity -/

/-- C8 (amended): along one engine run on an existing record whose
progress starts at 0, every committed progress value lies in [0,100] and
the committed progress sequence is non-decreasing over the whole run
(including the write of 100 after the `completed` commit and the error
write after the `failed` commit, which do occur after the terminal
status).  (As stated over every record and every committed update the
claim is false: the direct progress setter commits arbitrary integers at
any time — see the counterexample.) -/
theorem c8_engine_progress_monotone (env : Env) (m : Migration) (st0 : MemState)
    (h : getMigration m.id st0 = some m) (hp : m.progress = 0) :
    progressMono (m.progress ::
      (migrateRepository env m st0).commits.map (fun r => r.progress)) = true ∧
    ((migrateRepository env m st0).commits.map (fun r => r.progress)).all
      (fun p => decide (0 ≤ p) && decide (p ≤ 100)) = true := by
  have hm0 : mapLookup st0.migrations m.id = some m := h
  obtain ⟨da, dg, mk, cf, cr, sf, pf, rf, now⟩ := env
  cases da with
  | error e =>
    simp [migrateRepository, migrateBody, catchBlock, updateMigrationStatus,
      updateMigrationProgress, updateMigrationError, getMigration, hm0,
      mapLookup_mapSet_self, hp, progressMono]
    try decide
  | ok azureToken =>
    cases dg with
    | error e =>
      simp [migrateRepository, migrateBody, catchBlock, updateMigrationStatus,
        updateMigrationProgress, updateMigrationError, getMigration, hm0,
        mapLookup_mapSet_self, hp, progressMono]
      try decide
    | ok githubToken =>
      cases hname : lastTwoSnd (splitOnSlash m.sourceRepo.data) with
      | none =>
        simp [migrateRepository, migrateBody, catchBlock, updateMigrationStatus,
          updateMigrationProgress, updateMigrationError, getMigration, hm0,
          mapLookup_mapSet_self, hname, hp, progressMono]
        try decide
      | some nm =>
        cases mk with
        | error e =>
          simp [migrateRepository, migrateBody, catchBlock, updateMigrationStatus,
            updateMigrationProgress, updateMigrationError, getMigration, hm0,
            mapLookup_mapSet_self, hname, hp, progressMono]
          try decide
        | ok tempDir =>
          cases cf with
          | true =>
            simp [migrateRepository, migrateBody, catchBlock, updateMigrationStatus,
              updateMigrationProgress, updateMigrationError, getMigration, hm0,
              mapLookup_mapSet_self, hname, hp, progressMono]
            try decide
          | false =>
            cases cr with
            | error e =>
              by_cases h422 : e.responseStatus = some 422
              · cases sf with
                | true =>
                  simp [migrateRepository, migrateBody, catchBlock, updateMigrationStatus,
                    updateMigrationProgress, updateMigrationError, getMigration, hm0,
                    mapLookup_mapSet_self, hname, h422, hp, progressMono]
                  try decide
                | false =>
                  cases pf with
                  | true =>
                    simp [migrateRepository, migrateBody, catchBlock, updateMigrationStatus,
                      updateMigrationProgress, updateMigrationError, getMigration, hm0,
                      mapLookup_mapSet_self, hname, h422, hp, progressMono]
                    try decide
                  | false =>
                    simp [migrateRepository, migrateBody, catchBlock, updateMigrationStatus,
                      updateMigrationProgress, updateMigrationError, getMigration, hm0,
                      mapLookup_mapSet_self, hname, h422, hp, progressMono]
                    try decide
              ·
                simp [migrateRepository, migrateBody, catchBlock, updateMigrationStatus,
                  updateMigrationProgress, updateMigrationError, getMigration, hm0,
                  mapLookup_mapSet_self, hname, h422, hp, progressMono]
                try decide
            | ok u =>
              cases sf with
              | true =>
                simp [migrateRepository, migrateBody, catchBlock, updateMigrationStatus,
                  updateMigrationProgress, updateMigrationError, getMigration, hm0,
                  mapLookup_mapSet_self, hname, hp, progressMono]
                try decide
              | false =>
                cases pf with
                | true =>
                  simp [migrateRepository, migrateBody, catchBlock, updateMigrationStatus,
                    updateMigrationProgress, updateMigrationError, getMigration, hm0,
                    mapLookup_mapSet_self, hname, hp, progressMono]
                  try decide
                | false =>
                  simp [migrateRepository, migrateBody, catchBlock, updateMigrationStatus,
                    updateMigrationProgress, updateMigrationError, getMigration, hm0,
                    mapLookup_mapSet_self, hname, hp, progressMono]
                  try decide

/-- C8 counterexample: the direct progress setter commits `progress =
150`, outside [0,100], and may do so after a terminal status. -/
theorem c8_counterexample :
    (updateMigrationProgress 1 150 stW).map (fun p => p.1.progress) = some 150 ∧
      ¬((150 : Int) ≤ 100) := by
  decide

/-- Witness for C8 at a concrete all-successful run. -/
theorem c8_witness :
    progressMono (migW.progress ::
      (migrateRepository envOkW migW stW).commits.map (fun r => r.progress)) = true ∧
    ((migrateRepository envOkW migW stW).commits.map (fun r => r.progress)).all
      (fun p => decide (0 ≤ p) && decide (p ≤ 100)) = true :=
  c8_engine_progress_monotone envOkW migW stW (by decide) (by decide)

/-! ## C7: failure containment and workspace cleanup -/

theorem engine_escaped_false (env : Env) (m : Migration) (st0 : MemState)
    (h : getMigration m.id st0 = some m) :
    (migrateRepository env m st0).escaped = false := by
  have hm0 : mapLookup st0.migrations m.id = some m := h
  obtain ⟨da, dg, mk, cf, cr, sf, pf, rf, now⟩ := env
  cases da with
  | error e =>
    simp [migrateRepository, migrateBody, catchBlock, updateMigrationStatus,
      updateMigrationProgress, updateMigrationError, getMigration, hm0,
      mapLookup_mapSet_self]
  | ok azureToken =>
    cases dg with
    | error e =>
      simp [migrateRepository, migrateBody, catchBlock, updateMigrationStatus,
        updateMigrationProgress, updateMigrationError, getMigration, hm0,
        mapLookup_mapSet_self]
    | ok githubToken =>
      cases hname : lastTwoSnd (splitOnSlash m.sourceRepo.data) with
      | none =>
        simp [migrateRepository, migrateBody, catchBlock, updateMigrationStatus,
          updateMigrationProgress, updateMigrationError, getMigration, hm0,
          mapLookup_mapSet_self, hname]
      | some nm =>
        cases mk with
        | error e =>
          simp [migrateRepository, migrateBody, catchBlock, updateMigrationStatus,
            updateMigrationProgress, updateMigrationError, getMigration, hm0,
            mapLookup_mapSet_self, hname]
        | ok tempDir =>
          cases cf with
          | true =>
            simp [migrateRepository, migrateBody, catchBlock, updateMigrationStatus,
              updateMigrationProgress, updateMigrationError, getMigration, hm0,
              mapLookup_mapSet_self, hname]
          | false =>
            cases cr with
            | error e =>
              by_cases h422 : e.responseStatus = some 422
              · cases sf with
                | true =>
                  simp [migrateRepository, migrateBody, catchBlock, updateMigrationStatus,
                    updateMigrationProgress, updateMigrationError, getMigration, hm0,
                    mapLookup_mapSet_self, hname, h422]
                | false =>
                  cases pf with
                  | true =>
                    simp [migrateRepository, migrateBody, catchBlock, updateMigrationStatus,
                      updateMigrationProgress, updateMigrationError, getMigration, hm0,
                      mapLookup_mapSet_self, hname, h422]
                  | false =>
                    simp [migrateRepository, migrateBody, catchBlock, updateMigrationStatus,
                      updateMigrationProgress, updateMigrationError, getMigration, hm0,
                      mapLookup_mapSet_self, hname, h422]
              ·
                simp [migrateRepository, migrateBody, catchBlock, updateMigrationStatus,
                  updateMigrationProgress, updateMigrationError, getMigration, hm0,
                  mapLookup_mapSet_self, hname, h422]
            | ok u =>
              cases sf with
              | true =>
                simp [migrateRepository, migrateBody, catchBlock, updateMigrationStatus,
                  updateMigrationProgress, updateMigrationError, getMigration, hm0,
                  mapLookup_mapSet_self, hname]
              | false =>
                cases pf with
                | true =>
                  simp [migrateRepository, migrateBody, catchBlock, updateMigrationStatus,
                    updateMigrationProgress, updateMigrationError, getMigration, hm0,
                    mapLookup_mapSet_self, hname]
                | false =>
                  simp [migrateRepository, migrateBody, catchBlock, updateMigrationStatus,
                    updateMigrationProgress, updateMigrationError, getMigration, hm0,
                    mapLookup_mapSet_self, hname]

theorem engine_thrown_failed (env : Env) (m : Migration) (st0 : MemState)
    (h : getMigration m.id st0 = some m) (e0 : JsError)
    (ht : (migrateRepository env m st0).thrown = some e0) :
    ∀ r, getMigration m.id (migrateRepository env m st0).finalState = some r →
      r.status = MStatus.failed ∧ r.error = some (errorMessage e0) := by
  intro r hr
  have hm0 : mapLookup st0.migrations m.id = some m := h
  obtain ⟨da, dg, mk, cf, cr, sf, pf, rf, now⟩ := env
  cases da with
  | error e =>
    simp [migrateRepository, migrateBody, catchBlock, updateMigrationStatus,
      updateMigrationProgress, updateMigrationError, getMigration, hm0,
      mapLookup_mapSet_self] at ht
    subst ht
    simp [migrateRepository, migrateBody, catchBlock, updateMigrationStatus,
      updateMigrationProgress, updateMigrationError, getMigration, hm0,
      mapLookup_mapSet_self] at hr
    subst hr
    simp
  | ok azureToken =>
    cases dg with
    | error e =>
      simp [migrateRepository, migrateBody, catchBlock, updateMigrationStatus,
        updateMigrationProgress, updateMigrationError, getMigration, hm0,
        mapLookup_mapSet_self] at ht
      subst ht
      simp [migrateRepository, migrateBody, catchBlock, updateMigrationStatus,
        updateMigrationProgress, updateMigrationError, getMigration, hm0,
        mapLookup_mapSet_self] at hr
      subst hr
      simp
    | ok githubToken =>
      cases hname : lastTwoSnd (splitOnSlash m.sourceRepo.data) with
      | none =>
        simp [migrateRepository, migrateBody, catchBlock, updateMigrationStatus,
          updateMigrationProgress, updateMigrationError, getMigration, hm0,
          mapLookup_mapSet_self, hname] at ht
        subst ht
        simp [migrateRepository, migrateBody, catchBlock, updateMigrationStatus,
          updateMigrationProgress, updateMigrationError, getMigration, hm0,
          mapLookup_mapSet_self, hname] at hr
        subst hr
        simp
      | some nm =>
        cases mk with
        | error e =>
          simp [migrateRepository, migrateBody, catchBlock, updateMigrationStatus,
            updateMigrationProgress, updateMigrationError, getMigration, hm0,
            mapLookup_mapSet_self, hname] at ht
          subst ht
          simp [migrateRepository, migrateBody, catchBlock, updateMigrationStatus,
            updateMigrationProgress, updateMigrationError, getMigration, hm0,
            mapLookup_mapSet_self, hname] at hr
          subst hr
          simp
        | ok tempDir =>
          cases cf with
          | true =>
            simp [migrateRepository, migrateBody, catchBlock, updateMigrationStatus,
              updateMigrationProgress, updateMigrationError, getMigration, hm0,
              mapLookup_mapSet_self, hname] at ht
            subst ht
            simp [migrateRepository, migrateBody, catchBlock, updateMigrationStatus,
              updateMigrationProgress, updateMigrationError, getMigration, hm0,
              mapLookup_mapSet_self, hname] at hr
            subst hr
            simp
          | false =>
            cases cr with
            | error e =>
              by_cases h422 : e.responseStatus = some 422
              · cases sf with
                | true =>
                  simp [migrateRepository, migrateBody, catchBlock, updateMigrationStatus,
                    updateMigrationProgress, updateMigrationError, getMigration, hm0,
                    mapLookup_mapSet_self, hname, h422] at ht
                  subst ht
                  simp [migrateRepository, migrateBody, catchBlock, updateMigrationStatus,
                    updateMigrationProgress, updateMigrationError, getMigration, hm0,
                    mapLookup_mapSet_self, hname, h422] at hr
                  subst hr
                  simp
                | false =>
                  cases pf with
                  | true =>
                    simp [migrateRepository, migrateBody, catchBlock, updateMigrationStatus,
                      updateMigrationProgress, updateMigrationError, getMigration, hm0,
                      mapLookup_mapSet_self, hname, h422] at ht
                    subst ht
                    simp [migrateRepository, migrateBody, catchBlock, updateMigrationStatus,
                      updateMigrationProgress, updateMigrationError, getMigration, hm0,
                      mapLookup_mapSet_self, hname, h422] at hr
                    subst hr
                    simp
                  | false =>
                    simp [migrateRepository, migrateBody, catchBlock, updateMigrationStatus,
                      updateMigrationProgress, updateMigrationError, getMigration, hm0,
                      mapLookup_mapSet_self, hname, h422] at ht
              ·
                simp [migrateRepository, migrateBody, catchBlock, updateMigrationStatus,
                  updateMigrationProgress, updateMigrationError, getMigration, hm0,
                  mapLookup_mapSet_self, hname, h422] at ht
                subst ht
                simp [migrateRepository, migrateBody, catchBlock, updateMigrationStatus,
                  updateMigrationProgress, updateMigrationError, getMigration, hm0,
                  mapLookup_mapSet_self, hname, h422] at hr
                subst hr
                simp
            | ok u =>
              cases sf with
              | true =>
                simp [migrateRepository, migrateBody, catchBlock, updateMigrationStatus,
                  updateMigrationProgress, updateMigrationError, getMigration, hm0,
                  mapLookup_mapSet_self, hname] at ht
                subst ht
                simp [migrateRepository, migrateBody, catchBlock, updateMigrationStatus,
                  updateMigrationProgress, updateMigrationError, getMigration, hm0,
                  mapLookup_mapSet_self, hname] at hr
                subst hr
                simp
              | false =>
                cases pf with
                | true =>
                  simp [migrateRepository, migrateBody, catchBlock, updateMigrationStatus,
                    updateMigrationProgress, updateMigrationError, getMigration, hm0,
                    mapLookup_mapSet_self, hname] at ht
                  subst ht
                  simp [migrateRepository, migrateBody, catchBlock, updateMigrationStatus,
                    updateMigrationProgress, updateMigrationError, getMigration, hm0,
                    mapLookup_mapSet_self, hname] at hr
                  subst hr
                  simp
                | false =>
                  simp [migrateRepository, migrateBody, catchBlock, updateMigrationStatus,
                    updateMigrationProgress, updateMigrationError, getMigration, hm0,
                    mapLookup_mapSet_self, hname] at ht

theorem engine_rm_independent (env : Env) (m : Migration) (st0 : MemState) (b : Bool) :
    migrateRepository { env with rmFails := b } m st0
      = { migrateRepository env m st0 with
          rmFailed := (migrateRepository env m st0).tempDir.isSome && b } := rfl

theorem engine_tempDir_present (env : Env) (m : Migration) (st0 : MemState)
    (h : getMigration m.id st0 = some m) (a g d : String) (nm : List Char)
    (hda : env.decryptAzure = Except.ok a) (hdg : env.decryptGithub = Except.ok g)
    (hnm : lastTwoSnd (splitOnSlash m.sourceRepo.data) = some nm)
    (hmk : env.mkdtemp = Except.ok d) :
    (migrateRepository env m st0).tempDir = some d ∧
      (migrateRepository env m st0).rmAttempted = true := by
  have hm0 : mapLookup st0.migrations m.id = some m := h
  cases hcf : env.cloneFails with
  | true =>
    simp [migrateRepository, migrateBody, catchBlock, updateMigrationStatus,
      updateMigrationProgress, updateMigrationError, getMigration, hm0,
      mapLookup_mapSet_self, hda, hdg, hnm, hmk, hcf]
  | false =>
    cases hcr : env.createRepo with
    | error e =>
      by_cases h422 : e.responseStatus = some 422
      · cases hsf : env.setUrlFails with
        | true =>
          simp [migrateRepository, migrateBody, catchBlock, updateMigrationStatus,
            updateMigrationProgress, updateMigrationError, getMigration, hm0,
            mapLookup_mapSet_self, hda, hdg, hnm, hmk, hcf, hcr, h422, hsf]
        | false =>
          cases hpf : env.pushFails with
          | true =>
            simp [migrateRepository, migrateBody, catchBlock, updateMigrationStatus,
              updateMigrationProgress, updateMigrationError, getMigration, hm0,
              mapLookup_mapSet_self, hda, hdg, hnm, hmk, hcf, hcr, h422, hsf, hpf]
          | false =>
            simp [migrateRepository, migrateBody, catchBlock, updateMigrationStatus,
              updateMigrationProgress, updateMigrationError, getMigration, hm0,
              mapLookup_mapSet_self, hda, hdg, hnm, hmk, hcf, hcr, h422, hsf, hpf]
      · simp [migrateRepository, migrateBody, catchBlock, updateMigrationStatus,
          updateMigrationProgress, updateMigrationError, getMigration, hm0,
          mapLookup_mapSet_self, hda, hdg, hnm, hmk, hcf, hcr, h422]
    | ok u =>
      cases hsf : env.setUrlFails with
      | true =>
        simp [migrateRepository, migrateBody, catchBlock, updateMigrationStatus,
          updateMigrationProgress, updateMigrationError, getMigration, hm0,
          mapLookup_mapSet_self, hda, hdg, hnm, hmk, hcf, hcr, hsf]
      | false =>
        cases hpf : env.pushFails with
        | true =>
          simp [migrateRepository, migrateBody, catchBlock, updateMigrationStatus,
            updateMigrationProgress, updateMigrationError, getMigration, hm0,
            mapLookup_mapSet_self, hda, hdg, hnm, hmk, hcf, hcr, hsf, hpf]
        | false =>
          simp [migrateRepository, migrateBody, catchBlock, updateMigrationStatus,
            updateMigrationProgress, updateMigrationError, getMigration, hm0,
            mapLookup_mapSet_self, hda, hdg, hnm, hmk, hcf, hcr, hsf, hpf]

theorem errorMessage_prefers_payload (e : JsError) (dm : String)
    (hdm : e.responseDataMessage = some dm) (hne : dm ≠ "") : errorMessage e = dm := by
  simp [errorMessage, hdm, hne]

/-- C7: every stage failure is caught inside the run (nothing escapes
the engine when the record exists), converted to a string preferring the
structured `response.data.message` payload, and committed as terminal
`failed` with that string as the error; once the run reaches workspace
creation the workspace handle is recorded and its removal is attempted
on every exit path; and a workspace-removal failure changes nothing
about the run except the logged `rmFailed` flag — neither the final
state nor the committed records nor the thrown or escaped errors. -/
theorem c7_failure_containment (env : Env) (m : Migration) (st0 : MemState)
    (h : getMigration m.id st0 = some m) :
    (migrateRepository env m st0).escaped = false ∧
    (∀ e0, (migrateRepository env m st0).thrown = some e0 →
      ∀ r, getMigration m.id (migrateRepository env m st0).finalState = some r →
        r.status = MStatus.failed ∧ r.error = some (errorMessage e0)) ∧
    (∀ e dm, e.responseDataMessage = some dm → dm ≠ "" → errorMessage e = dm) ∧
    (∀ b, migrateRepository { env with rmFails := b } m st0
        = { migrateRepository env m st0 with
            rmFailed := (migrateRepository env m st0).tempDir.isSome && b }) ∧
    (∀ a g nm d, env.decryptAzure = Except.ok a → env.decryptGithub = Except.ok g →
      lastTwoSnd (splitOnSlash m.sourceRepo.data) = some nm → env.mkdtemp = Except.ok d →
      (migrateRepository env m st0).tempDir = some d ∧
        (migrateRepository env m st0).rmAttempted = true) :=
  ⟨engine_escaped_false env m st0 h,
   fun e0 ht => engine_thrown_failed env m st0 h e0 ht,
   fun e dm hdm hne => errorMessage_prefers_payload e dm hdm hne,
   fun b => engine_rm_independent env m st0 b,
   fun a g nm d hda hdg hnm hmk => engine_tempDir_present env m st0 h a g d nm hda hdg hnm hmk⟩

/-- Witness for C7: on a clone-failure run of the concrete fixture,
nothing escapes the engine. -/
theorem c7_witness : (migrateRepository envCloneFailW migW stW).escaped = false :=
  (c7_failure_containment envCloneFailW migW stW (by decide)).1

/-! ## C6: idempotent target-repository creation -/

/-- C6: during the ensure-target-repository stage, a creation failure
whose response status is 422 (the "already exists" answer the code
tests for) does not abort the run — with the remaining stages
successful the record reaches `completed` with progress 100 — while a
creation failure with any other (or no) response status is fatal and
drives the record to `failed` with the failure's message. -/
theorem c6_already_exists_tolerated (env : Env) (m : Migration) (st0 : MemState)
    (h : getMigration m.id st0 = some m) (a g d : String) (nm : List Char)
    (hda : env.decryptAzure = Except.ok a) (hdg : env.decryptGithub = Except.ok g)
    (hnm : lastTwoSnd (splitOnSlash m.sourceRepo.data) = some nm)
    (hmk : env.mkdtemp = Except.ok d) (hcf : env.cloneFails = false) :
    (∀ e0, env.createRepo = Except.error e0 → e0.responseStatus = some 422 →
      env.setUrlFails = false → env.pushFails = false →
      ∀ r, getMigration m.id (migrateRepository env m st0).finalState = some r →
        r.status = MStatus.completed ∧ r.progress = 100) ∧
    (∀ e0, env.createRepo = Except.error e0 → e0.responseStatus ≠ some 422 →
      ∀ r, getMigration m.id (migrateRepository env m st0).finalState = some r →
        r.status = MStatus.failed ∧ r.error = some (errorMessage e0)) := by
  have hm0 : mapLookup st0.migrations m.id = some m := h
  constructor
  · intro e0 hcr h422 hsf hpf r hr
    simp [migrateRepository, migrateBody, catchBlock, updateMigrationStatus,
      updateMigrationProgress, updateMigrationError, getMigration, hm0,
      mapLookup_mapSet_self, hda, hdg, hnm, hmk, hcf, hcr, h422, hsf, hpf] at hr
    subst hr
    simp
  · intro e0 hcr h422 r hr
    simp [migrateRepository, migrateBody, catchBlock, updateMigrationStatus,
      updateMigrationProgress, updateMigrationError, getMigration, hm0,
      mapLookup_mapSet_self, hda, hdg, hnm, hmk, hcf, hcr, h422] at hr
    subst hr
    simp

/-- Witness for C6: the concrete 422 ("already exists") run reaches
`completed` with progress 100. -/
theorem c6_witness :
    ((getMigration 1 (migrateRepository envCreate422W migW stW).finalState).map
      (fun r => (r.status, r.progress))) = some (MStatus.completed, 100) := by
  obtain ⟨r, hr⟩ := Option.isSome_iff_exists.mp
    (by decide : (getMigration 1 (migrateRepository envCreate422W migW stW).finalState).isSome)
  have h2 := (c6_already_exists_tolerated envCreate422W migW stW (by decide)
    "AZSECRET" "GHSECRET" "/tmp/repo-migration-abc123" "My Repo!!".data
    (by decide) (by decide) (by decide) (by decide) (by decide)).1
    { message := "Request failed with status code 422"
      responseStatus := some 422
      responseDataMessage := some "Repository creation failed." }
    (by decide) (by decide) (by decide) (by decide) r hr
  rw [hr, Option.map_some']
  rw [h2.1, h2.2]

/-! ## C1: plaintext credentials leak into the committed error -/

/-- C1: on a clone failure the engine commits, through the status
tracker, an error string that embeds the executed command line and with
it the decrypted source credential: the plaintext token `AZSECRET`
occurs in the error stored on the record (`execSync` raises `Command
failed: <cmd>` and the clone command carries the plaintext token in its
URL, routes lines 48-49 and 92-94), contradicting the requirement that
the plaintext never reach the Status Tracker. -/
theorem c1_plaintext_token_in_committed_error :
    ((getMigration 1 (migrateRepository envCloneFailW migW stW).finalState).bind
      (fun r => r.error)).map (fun e => occursIn "AZSECRET".data e.data) = some true := by
  decide

/-! ## C5: the normalized name is computed but never used -/

/-- C5: the engine computes the normalized source name (`"my-repo"`)
on routes line 37, but the name it sends to the target-host create call
is the second `/`-component of the raw `targetRepo` (`"My Repo!!"`),
and the push URL embeds the raw `targetRepo` as well — the normalized
name is dead and differs from the name actually used. -/
theorem c5_sanitized_name_unused :
    (migrateRepository envOkW migW stW).sanitizedName = some "my-repo" ∧
    (migrateRepository envOkW migW stW).createNameUsed = some "My Repo!!" ∧
    (migrateRepository envOkW migW stW).pushUrlUsed
      = some "https://GHSECRET@github.com/tgtorg/My Repo!!.git" ∧
    (migrateRepository envOkW migW stW).createNameUsed
      ≠ (migrateRepository envOkW migW stW).sanitizedName := by
  decide
